import Mathlib

/-! Verification of the task-tracker core: the in-memory task store
(`TaskService`, `src/app/services/task.service.ts`) and the orchestrating
component (`AppComponent`, `src/app/app.component.ts`), shallowly embedded
from the TypeScript source.

Modeling conventions:
* JS `Date` values are natural-number milliseconds; each operation receives
  the clock reading `now` at which its (synchronous) body runs.
* An Angular `Observable` result that either emits a value or errors is an
  `Except TaskError α`; the simulated `delay` only postpones delivery and is
  irrelevant to the delivered value, so it is not modeled.
* A TS optional field (`title?: string`) is an `Option`; an absent field is
  `none`.  Thrown `Error` values are distinguished by their message class.
* `ServiceState.assigned` is a history (ghost) variable recording every id
  `generateId` ever returned, used to state lifetime uniqueness of ids. -/

namespace TaskTracker

/-- JS whitespace (the characters relevant to `String.prototype.trim`). -/
def isJsSpace (c : Char) : Bool :=
  c == ' ' || c == '\t' || c == '\n' || c == '\r' || c == '\x0b' || c == '\x0c'

/-- Embedding of JS `String.prototype.trim`: drop whitespace from both ends. -/
def jsTrim (s : String) : String :=
  String.mk (((s.data.dropWhile isJsSpace).reverse.dropWhile isJsSpace).reverse)

/-- The decimal digit character for `d` (JS number-to-string digit). -/
def digitChar (d : Nat) : Char :=
  match d with
  | 0 => '0' | 1 => '1' | 2 => '2' | 3 => '3' | 4 => '4'
  | 5 => '5' | 6 => '6' | 7 => '7' | 8 => '8' | _ => '9'

/-- Fuel-driven decimal printer (most significant digit first).  The fuel is
only there to make the recursion structural; `fuel ≥ n` suffices. -/
def natReprAux (fuel n : Nat) : List Char :=
  match fuel, n with
  | _, 0 => []
  | 0, _ + 1 => []
  | fuel + 1, n + 1 =>
    natReprAux fuel ((n + 1) / 10) ++ [digitChar ((n + 1) % 10)]

/-- Embedding of JS number-to-string for a nonnegative integer, as used by
the template literal in `generateId`. -/
def natRepr (n : Nat) : String :=
  if n = 0 then "0" else String.mk (natReprAux n n)

/-- The `Task` entity (`task.model.ts`). -/
structure Task where
  id : String
  title : String
  description : String
  completed : Bool
  createdAt : Nat
  updatedAt : Nat
deriving Repr, DecidableEq

/-- Source `CreateTaskRequest` (`task.model.ts`). -/
structure CreateTaskRequest where
  title : String
  description : String
deriving Repr, DecidableEq

/-- Source `UpdateTaskRequest` (`task.model.ts`): all fields optional. -/
structure UpdateTaskRequest where
  title : Option String := none
  description : Option String := none
  completed : Option Bool := none
deriving Repr, DecidableEq

/-- The errors the service throws, distinguished by message class:
`notFound id` is `Error` with message including "not found", `validation m`
is `Error` with message `m`. -/
inductive TaskError where
  | notFound (id : String)
  | validation (msg : String)
deriving Repr, DecidableEq

/-- The human-readable message carried by a thrown error. -/
def TaskError.message : TaskError → String
  | .notFound id => "Task with ID " ++ id ++ " not found"
  | .validation msg => msg

/-- Mutable state of `TaskService`: the collection, the id counter, and the
ghost history of all ids ever handed out by `generateId`. -/
structure ServiceState where
  tasks : List Task
  nextId : Nat
  assigned : List String
deriving Repr, DecidableEq

/-- Embedding of JS `Array.prototype.findIndex` (with `none` for `-1`). -/
def findIndex (p : α → Bool) : List α → Option Nat
  | [] => none
  | x :: xs => if p x then some 0 else (findIndex p xs).map (· + 1)

/-- Source `generateId`: the template literal `task_<nextId>_<Date.now()>`. -/
def generateId (nextId now : Nat) : String :=
  "task_" ++ natRepr nextId ++ "_" ++ natRepr now

/-- The task literal built by `createTask`. -/
def freshTask (nextId now : Nat) (taskData : CreateTaskRequest) : Task :=
  { id := generateId nextId now
    title := jsTrim taskData.title
    description := jsTrim taskData.description
    completed := false
    createdAt := now
    updatedAt := now }

/-- Source `createTask`: validate the trimmed title, then push a fresh task. -/
def createTask (now : Nat) (taskData : CreateTaskRequest) (s : ServiceState) :
    Except TaskError Task × ServiceState :=
  if jsTrim taskData.title = "" then
    (.error (.validation "Task title is required"), s)
  else
    let newTask := freshTask s.nextId now taskData
    (.ok newTask,
      { tasks := s.tasks ++ [newTask]
        nextId := s.nextId + 1
        assigned := newTask.id :: s.assigned })

/-- The JS expression `v?.trim() || fallback` with `v` already trimmed:
an absent or (trimmed-to-)empty value falls back. -/
def jsOrElse : Option String → String → String
  | some v, fallback => if v = "" then fallback else v
  | none, fallback => fallback

/-- The guard `updates.title !== undefined && !updates.title.trim()`:
a title that is present but blank after trimming. -/
def blankTitle : Option String → Bool
  | some ttl => jsTrim ttl == ""
  | none => false

/-- The merged task built by `updateTask`: the spread
`{...existingTask, ...updates}` followed by the explicit `title`,
`description`, `updatedAt` overrides. -/
def mergeTask (now : Nat) (updates : UpdateTaskRequest) (existingTask : Task) :
    Task :=
  { id := existingTask.id
    title := jsOrElse (updates.title.map jsTrim) existingTask.title
    description :=
      jsOrElse (updates.description.map jsTrim) existingTask.description
    completed := updates.completed.getD existingTask.completed
    createdAt := existingTask.createdAt
    updatedAt := now }

/-- Source `updateTask`: find the task, reject an explicitly blank title, then merge
`{...existingTask, ...updates, title: ..., description: ..., updatedAt: now}`
and store the merged task back at the same index. -/
def updateTask (now : Nat) (id : String) (updates : UpdateTaskRequest)
    (s : ServiceState) : Except TaskError Task × ServiceState :=
  match findIndex (fun t => t.id == id) s.tasks with
  | none => (.error (.notFound id), s)
  | some taskIndex =>
    if blankTitle updates.title then
      (.error (.validation "Task title cannot be empty"), s)
    else
      match s.tasks[taskIndex]? with
      | none => (.error (.notFound id), s)   -- unreachable: the index is valid
      | some existingTask =>
        let updatedTask := mergeTask now updates existingTask
        (.ok updatedTask, { s with tasks := s.tasks.set taskIndex updatedTask })

/-- Source `deleteTask`: find the task and splice it out. -/
def deleteTask (id : String) (s : ServiceState) :
    Except TaskError Bool × ServiceState :=
  match findIndex (fun t => t.id == id) s.tasks with
  | none => (.error (.notFound id), s)
  | some taskIndex => (.ok true, { s with tasks := s.tasks.eraseIdx taskIndex })

/-- Source `toggleTaskCompletion`: look the task up, then delegate to `updateTask`
with the negated `completed` flag. -/
def toggleTaskCompletion (now : Nat) (id : String) (s : ServiceState) :
    Except TaskError Task × ServiceState :=
  match s.tasks.find? (fun t => t.id == id) with
  | none => (.error (.notFound id), s)
  | some task => updateTask now id { completed := some (!task.completed) } s

/-- The sample data created by the service constructor. -/
def sampleRequests : List CreateTaskRequest :=
  [ { title := "Learn Angular 18"
      description := "Study the new features and improvements in Angular 18" }
  , { title := "Build Task Tracker"
      description := "Create a simple task management application" }
  , { title := "Write Unit Tests"
      description := "Add comprehensive test coverage for all components" } ]

/-- The state of a freshly constructed service (fields start empty, `nextId`
starts at 1, then the constructor creates the sample tasks at time `t0`). -/
def initState (t0 : Nat) : ServiceState :=
  sampleRequests.foldl (fun s r => (createTask t0 r s).2)
    { tasks := [], nextId := 1, assigned := [] }

/-- A store command together with the clock reading at which it runs. -/
inductive Op where
  | create (now : Nat) (req : CreateTaskRequest)
  | update (now : Nat) (id : String) (req : UpdateTaskRequest)
  | del (id : String)
  | toggle (now : Nat) (id : String)
deriving Repr, DecidableEq

/-- Apply one command to the store state (discarding the delivered result). -/
def applyOp (s : ServiceState) : Op → ServiceState
  | .create now req => (createTask now req s).2
  | .update now id req => (updateTask now id req s).2
  | .del id => (deleteTask id s).2
  | .toggle now id => (toggleTaskCompletion now id s).2

/-- Run a sequence of commands. -/
def runOps (s : ServiceState) (ops : List Op) : ServiceState :=
  ops.foldl applyOp s

/-! ## The orchestrating component (`AppComponent`)

`timers` records the fire times of the `setTimeout` callbacks scheduled by
`showSuccess` and not yet fired; `destroyed` records that `ngOnDestroy` has
run (`destroy$` completed, so `takeUntil` has cancelled the subscriptions).
An operation handler such as `onDeleteTask` models the command together with
the delivery of its result, which assumes the component is still alive at
delivery time. -/

structure AppState where
  tasks : List Task
  editingTask : Option Task
  isLoading : Bool
  isSubmitting : Bool
  errorMessage : String
  successMessage : String
  destroyed : Bool
  timers : List Nat
deriving Repr, DecidableEq

/-- Field initializers of `AppComponent`. -/
def initialAppState : AppState :=
  { tasks := [], editingTask := none, isLoading := false, isSubmitting := false
    errorMessage := "", successMessage := "", destroyed := false, timers := [] }

/-- The `setTimeout` delay used by `showSuccess` (3000 ms). -/
def successDelay : Nat := 3000

/-- Source `clearMessages`. -/
def clearMessages (st : AppState) : AppState :=
  { st with errorMessage := "", successMessage := "" }

/-- Source `showSuccess`: set the message and schedule a `setTimeout` that will
clear it `successDelay` later.  The timeout handle is not stored anywhere in
the source, so nothing ever cancels it. -/
def showSuccess (now : Nat) (message : String) (st : AppState) : AppState :=
  { st with successMessage := message, timers := st.timers ++ [now + successDelay] }

/-- The body of the `setTimeout` callback scheduled by `showSuccess`, run
when the `i`-th pending timer fires: it sets `successMessage` to the empty
string unconditionally (the component object is still reachable from the
closure, destroyed or not). -/
def fireSuccessTimer (i : Nat) (st : AppState) : AppState :=
  { st with successMessage := "", timers := st.timers.eraseIdx i }

/-- Source `ngOnDestroy`: `destroy$.next(); destroy$.complete()` — cancels the
`takeUntil` subscriptions; the pending `setTimeout`s are untouched. -/
def ngOnDestroy (st : AppState) : AppState :=
  { st with destroyed := true }

/-- Source `handleError`: `errorMessage = error?.message || message`. -/
def handleError (fallback errMsg : String) (st : AppState) : AppState :=
  { st with errorMessage := if errMsg = "" then fallback else errMsg }

/-- Source `onDeleteTask`: clear messages, invoke the service delete; on success
show the success message and, if the deleted id is the one being edited,
clear the editing reference; on error surface the error message. -/
def onDeleteTask (now : Nat) (taskId : String) (app : AppState)
    (svc : ServiceState) : AppState × ServiceState :=
  let app1 := clearMessages app
  let r := deleteTask taskId svc
  match r.1 with
  | .ok _ =>
    let app2 := showSuccess now "Task deleted successfully!" app1
    let app3 :=
      if (match app2.editingTask with
          | some t => t.id == taskId
          | none => false) then
        { app2 with editingTask := none }
      else app2
    (app3, r.2)
  | .error e => (handleError "Failed to delete task" e.message app1, r.2)

/-! ## Remaining definitions used by the proofs -/

/-- Numeric value of a most-significant-first digit string (proof device for
the injectivity of the decimal printer). -/
def charsVal : List Char → Nat
  | [] => 0
  | c :: cs => (c.toNat - 48) * 10 ^ cs.length + charsVal cs

/-- Store invariant: every id ever assigned is `generateId k t` for some
counter value `k` below the current `nextId`, the assigned ids are pairwise
distinct, and every task in the collection carries an assigned id. -/
def IdInv (s : ServiceState) : Prop :=
  (∀ idStr ∈ s.assigned, ∃ k t, idStr = generateId k t ∧ k < s.nextId) ∧
  s.assigned.Nodup ∧
  (∀ tsk ∈ s.tasks, tsk.id ∈ s.assigned)

deriving instance DecidableEq for Except

/-- A concrete task used to instantiate the universally quantified theorems. -/
def exampleTask : Task :=
  { id := "t1", title := "Buy milk", description := "old"
    completed := false, createdAt := 0, updatedAt := 0 }

/-- A concrete one-task store state used to instantiate the theorems. -/
def exampleState : ServiceState :=
  { tasks := [exampleTask], nextId := 2, assigned := ["t1"] }

/-! ## The decimal printer: correctness, injectivity, digit alphabet -/

theorem digitChar_toNat {d : Nat} (h : d < 10) : (digitChar d).toNat = 48 + d := by
  interval_cases d <;> rfl

theorem digitChar_ne_underscore (d : Nat) : digitChar d ≠ '_' := by
  unfold digitChar
  split <;> decide

theorem charsVal_append_digit (xs : List Char) (c : Char) :
    charsVal (xs ++ [c]) = 10 * charsVal xs + (c.toNat - 48) := by
  induction xs with
  | nil => simp [charsVal]
  | cons x xs ih =>
    rw [List.cons_append]
    show (x.toNat - 48) * 10 ^ (xs ++ [c]).length + charsVal (xs ++ [c]) = _
    rw [ih, List.length_append, List.length_singleton]
    show (x.toNat - 48) * 10 ^ (xs.length + 1) + (10 * charsVal xs + (c.toNat - 48))
        = 10 * ((x.toNat - 48) * 10 ^ xs.length + charsVal xs) + (c.toNat - 48)
    ring

theorem charsVal_natReprAux :
    ∀ fuel n, n ≤ fuel → charsVal (natReprAux fuel n) = n := by
  intro fuel
  induction fuel with
  | zero =>
    intro n h
    interval_cases n
    rfl
  | succ fuel ih =>
    intro n h
    match n with
    | 0 => rfl
    | n + 1 =>
      have hdiv : (n + 1) / 10 ≤ fuel := by
        have : (n + 1) / 10 < n + 1 := Nat.div_lt_self (Nat.succ_pos n) (by omega)
        omega
      have hmod : (n + 1) % 10 < 10 := Nat.mod_lt _ (by omega)
      calc charsVal (natReprAux (fuel + 1) (n + 1))
          = charsVal (natReprAux fuel ((n + 1) / 10) ++ [digitChar ((n + 1) % 10)]) := rfl
        _ = 10 * charsVal (natReprAux fuel ((n + 1) / 10))
              + ((digitChar ((n + 1) % 10)).toNat - 48) :=
            charsVal_append_digit _ _
        _ = 10 * ((n + 1) / 10) + (n + 1) % 10 := by
            rw [ih _ hdiv, digitChar_toNat hmod]
            omega
        _ = n + 1 := by omega

theorem natReprAux_no_underscore : ∀ fuel n, '_' ∉ natReprAux fuel n := by
  intro fuel
  induction fuel with
  | zero =>
    intro n
    match n with
    | 0 => simp [natReprAux]
    | n + 1 => simp [natReprAux]
  | succ fuel ih =>
    intro n
    match n with
    | 0 => simp [natReprAux]
    | n + 1 =>
      intro hmem
      rw [show natReprAux (fuel + 1) (n + 1)
            = natReprAux fuel ((n + 1) / 10) ++ [digitChar ((n + 1) % 10)] from rfl]
        at hmem
      rcases List.mem_append.mp hmem with h | h
      · exact ih _ h
      · exact digitChar_ne_underscore _ (List.mem_singleton.mp h).symm

theorem natRepr_data_no_underscore (n : Nat) : '_' ∉ (natRepr n).data := by
  unfold natRepr
  split
  · decide
  · exact natReprAux_no_underscore n n

theorem natRepr_val (n : Nat) : charsVal (natRepr n).data = n := by
  unfold natRepr
  split
  · next h => subst h; decide
  · exact charsVal_natReprAux n n (Nat.le_refl n)

theorem natRepr_data_inj {n m : Nat} (h : (natRepr n).data = (natRepr m).data) :
    n = m := by
  have hv := congrArg charsVal h
  rwa [natRepr_val, natRepr_val] at hv

theorem append_cons_inj {α : Type} {c : α} :
    ∀ {xs xs' ys ys' : List α}, c ∉ xs → c ∉ xs' →
      xs ++ c :: ys = xs' ++ c :: ys' → xs = xs' ∧ ys = ys' := by
  intro xs
  induction xs with
  | nil =>
    intro xs' ys ys' _ hx' h
    match xs' with
    | [] => simpa using h
    | a :: as =>
      exfalso
      simp only [List.nil_append, List.cons_append, List.cons.injEq] at h
      exact hx' (h.1 ▸ List.mem_cons_self a as)
  | cons a as ih =>
    intro xs' ys ys' hx hx' h
    match xs' with
    | [] =>
      exfalso
      simp only [List.nil_append, List.cons_append, List.cons.injEq] at h
      exact hx (h.1 ▸ List.mem_cons_self a as)
    | b :: bs =>
      simp only [List.cons_append, List.cons.injEq] at h
      obtain ⟨rfl, h2⟩ := h
      have hxt : c ∉ as := fun hc => hx (List.mem_cons_of_mem _ hc)
      have hxt' : c ∉ bs := fun hc => hx' (List.mem_cons_of_mem _ hc)
      obtain ⟨he, hy⟩ := ih hxt hxt' h2
      exact ⟨by rw [he], hy⟩

/-- Two generated ids with distinct counter values are distinct strings,
whatever the respective clock readings were. -/
theorem generateId_inj_left {k t k' t' : Nat}
    (h : generateId k t = generateId k' t') : k = k' := by
  have hd := congrArg String.data h
  simp only [generateId, String.data_append, List.append_assoc,
    List.singleton_append, List.cons_append, List.cons.injEq, true_and] at hd
  have h3 := append_cons_inj (natRepr_data_no_underscore k)
    (natRepr_data_no_underscore k') hd
  exact natRepr_data_inj h3.1

/-! ## Properties of `findIndex` (JS `Array.prototype.findIndex`) -/

theorem findIndex_eq_none {α : Type} {p : α → Bool} {l : List α}
    (h : ∀ x ∈ l, p x = false) : findIndex p l = none := by
  induction l with
  | nil => rfl
  | cons x xs ih =>
    simp only [findIndex, h x (List.mem_cons_self x xs), Bool.false_eq_true,
      if_false]
    rw [ih fun y hy => h y (List.mem_cons_of_mem _ hy)]
    rfl

theorem findIndex_some_get {α : Type} {p : α → Bool} :
    ∀ {l : List α} {i : Nat}, findIndex p l = some i →
      ∃ x, l[i]? = some x ∧ p x = true := by
  intro l
  induction l with
  | nil => intro i h; exact absurd h (by simp [findIndex])
  | cons x xs ih =>
    intro i h
    simp only [findIndex] at h
    split at h
    · next hp =>
      injection h with h
      subst h
      exact ⟨x, by simp, hp⟩
    · next hp =>
      cases hf : findIndex p xs with
      | none => rw [hf] at h; simp at h
      | some j =>
        rw [hf] at h
        simp only [Option.map_some'] at h
        injection h with h
        obtain ⟨y, hy, hpy⟩ := ih hf
        subst h
        exact ⟨y, by simpa using hy, hpy⟩

theorem findIndex_set_self {α : Type} {p : α → Bool} :
    ∀ {l : List α} {i : Nat} {y : α}, findIndex p l = some i → p y = true →
      findIndex p (l.set i y) = some i := by
  intro l
  induction l with
  | nil => intro i y h _; exact absurd h (by simp [findIndex])
  | cons x xs ih =>
    intro i y h hy
    simp only [findIndex] at h
    split at h
    · next hp =>
      injection h with h
      subst h
      simp [findIndex, hy]
    · next hp =>
      cases hf : findIndex p xs with
      | none => rw [hf] at h; simp at h
      | some j =>
        rw [hf] at h
        simp only [Option.map_some'] at h
        injection h with h
        subst h
        rw [List.set_cons_succ]
        simp only [findIndex, hp, Bool.false_eq_true, if_false, ih hf hy,
          Option.map_some']

theorem getElem?_set_of_some {α : Type} {l : List α} {i : Nat} {x y : α}
    (h : l[i]? = some x) : (l.set i y)[i]? = some y := by
  have hi : i < l.length := by
    by_contra hc
    simp [List.getElem?_eq_none (Nat.le_of_not_lt hc)] at h
  simp [List.getElem?_set, hi]

theorem find?_of_findIndex {α : Type} {p : α → Bool} :
    ∀ {l : List α} {i : Nat} {x : α}, findIndex p l = some i → l[i]? = some x →
      l.find? p = some x := by
  intro l
  induction l with
  | nil => intro i x h _; exact absurd h (by simp [findIndex])
  | cons a as ih =>
    intro i x h hg
    simp only [findIndex] at h
    split at h
    · next hp =>
      injection h with h
      subst h
      simp only [List.getElem?_cons_zero] at hg
      injection hg with hg
      subst hg
      exact List.find?_cons_of_pos _ hp
    · next hp =>
      cases hf : findIndex p as with
      | none => rw [hf] at h; simp at h
      | some j =>
        rw [hf] at h
        simp only [Option.map_some'] at h
        injection h with h
        subst h
        rw [List.find?_cons_of_neg _ (by simpa using hp)]
        exact ih hf (by simpa using hg)

theorem findIndex_of_find? {α : Type} {p : α → Bool} :
    ∀ {l : List α} {x : α}, l.find? p = some x →
      ∃ i, findIndex p l = some i ∧ l[i]? = some x := by
  intro l
  induction l with
  | nil => intro x h; simp at h
  | cons a as ih =>
    intro x h
    by_cases hp : p a = true
    · rw [List.find?_cons_of_pos _ hp] at h
      injection h with h
      subst h
      exact ⟨0, by simp [findIndex, hp], by simp⟩
    · rw [List.find?_cons_of_neg _ hp] at h
      obtain ⟨i, hfi, hgi⟩ := ih h
      refine ⟨i + 1, ?_, by simpa using hgi⟩
      simp only [findIndex, hfi, Option.map_some',
        Bool.not_eq_true] at hp ⊢
      rw [if_neg (by simp [hp])]

theorem mem_of_getElem? {α : Type} {l : List α} {i : Nat} {x : α}
    (h : l[i]? = some x) : x ∈ l := by
  have hi : i < l.length := by
    by_contra hc
    simp [List.getElem?_eq_none (Nat.le_of_not_lt hc)] at h
  rw [List.getElem?_eq_getElem hi] at h
  injection h with h
  exact h ▸ List.getElem_mem hi

/-! ## Characterization of the store operations -/

theorem createTask_blank {taskData : CreateTaskRequest} (now : Nat)
    {s : ServiceState} (h : jsTrim taskData.title = "") :
    createTask now taskData s = (.error (.validation "Task title is required"), s) := by
  simp [createTask, h]

theorem createTask_ok {taskData : CreateTaskRequest} (now : Nat)
    {s : ServiceState} (h : ¬ jsTrim taskData.title = "") :
    createTask now taskData s =
      (.ok (freshTask s.nextId now taskData),
       { tasks := s.tasks ++ [freshTask s.nextId now taskData]
         nextId := s.nextId + 1
         assigned := (freshTask s.nextId now taskData).id :: s.assigned }) := by
  simp [createTask, h]

theorem updateTask_not_found {s : ServiceState} {id : String}
    (h : ∀ t ∈ s.tasks, t.id ≠ id) (now : Nat) (req : UpdateTaskRequest) :
    updateTask now id req s = (.error (.notFound id), s) := by
  have hf : findIndex (fun t => t.id == id) s.tasks = none :=
    findIndex_eq_none fun x hx => by
      simp only [beq_eq_false_iff_ne, ne_eq]
      exact h x hx
  simp [updateTask, hf]

theorem updateTask_found {s : ServiceState} {id : String} {i : Nat} {tsk : Task}
    (hf : findIndex (fun t => t.id == id) s.tasks = some i)
    (hg : s.tasks[i]? = some tsk)
    (req : UpdateTaskRequest) (hT : blankTitle req.title = false) (now : Nat) :
    updateTask now id req s =
      (.ok (mergeTask now req tsk),
       { s with tasks := s.tasks.set i (mergeTask now req tsk) }) := by
  simp [updateTask, hf, hg, hT]

theorem deleteTask_not_found {s : ServiceState} {id : String}
    (h : ∀ t ∈ s.tasks, t.id ≠ id) :
    deleteTask id s = (.error (.notFound id), s) := by
  have hf : findIndex (fun t => t.id == id) s.tasks = none :=
    findIndex_eq_none fun x hx => by
      simp only [beq_eq_false_iff_ne, ne_eq]
      exact h x hx
  simp [deleteTask, hf]

theorem toggleTaskCompletion_not_found {s : ServiceState} {id : String}
    (h : ∀ t ∈ s.tasks, t.id ≠ id) (now : Nat) :
    toggleTaskCompletion now id s = (.error (.notFound id), s) := by
  have hf : s.tasks.find? (fun t => t.id == id) = none := by
    rw [List.find?_eq_none]
    intro x hx
    simp only [beq_eq_false_iff_ne, ne_eq, Bool.not_eq_true]
    simp [h x hx]
  simp [toggleTaskCompletion, hf]

/-! ## The id-uniqueness invariant -/

theorem fresh_id_not_assigned {s : ServiceState}
    (h : ∀ idStr ∈ s.assigned, ∃ k t, idStr = generateId k t ∧ k < s.nextId)
    (now : Nat) : generateId s.nextId now ∉ s.assigned := by
  intro hmem
  obtain ⟨k, t, hEq, hlt⟩ := h _ hmem
  have := generateId_inj_left hEq
  omega

theorem IdInv_empty : IdInv { tasks := [], nextId := 1, assigned := [] } := by
  refine ⟨?_, ?_, ?_⟩ <;> simp [IdInv]

theorem IdInv_create (now : Nat) (req : CreateTaskRequest) {s : ServiceState}
    (h : IdInv s) : IdInv (createTask now req s).2 := by
  obtain ⟨h1, h2, h3⟩ := h
  by_cases hb : jsTrim req.title = ""
  · rw [createTask_blank now hb]
    exact ⟨h1, h2, h3⟩
  · rw [createTask_ok now hb]
    dsimp only [IdInv]
    refine ⟨?_, ?_, ?_⟩
    · intro idStr hmem
      rcases List.mem_cons.mp hmem with h' | h'
      · exact ⟨s.nextId, now, h', by omega⟩
      · obtain ⟨k, t, hEq, hlt⟩ := h1 _ h'
        exact ⟨k, t, hEq, by omega⟩
    · rw [List.nodup_cons]
      exact ⟨fresh_id_not_assigned h1 now, h2⟩
    · intro tsk hmem
      rcases List.mem_append.mp hmem with h' | h'
      · exact List.mem_cons_of_mem _ (h3 tsk h')
      · rw [List.mem_singleton.mp h']
        exact List.mem_cons_self _ _

theorem IdInv_update (now : Nat) (id : String) (req : UpdateTaskRequest)
    {s : ServiceState} (h : IdInv s) : IdInv (updateTask now id req s).2 := by
  obtain ⟨h1, h2, h3⟩ := h
  unfold updateTask
  cases hf : findIndex (fun t => t.id == id) s.tasks with
  | none => exact ⟨h1, h2, h3⟩
  | some i =>
    by_cases hb : blankTitle req.title = true
    · simp only [hb, if_true]
      exact ⟨h1, h2, h3⟩
    · simp only [hb, if_false]
      cases hg : s.tasks[i]? with
      | none => exact ⟨h1, h2, h3⟩
      | some tsk =>
        refine ⟨h1, h2, ?_⟩
        intro t ht
        rcases List.mem_or_eq_of_mem_set ht with h' | h'
        · exact h3 t h'
        · subst h'
          have hmem : tsk ∈ s.tasks := mem_of_getElem? hg
          simpa [mergeTask] using h3 tsk hmem

theorem IdInv_delete (id : String) {s : ServiceState} (h : IdInv s) :
    IdInv (deleteTask id s).2 := by
  obtain ⟨h1, h2, h3⟩ := h
  unfold deleteTask
  cases hf : findIndex (fun t => t.id == id) s.tasks with
  | none => exact ⟨h1, h2, h3⟩
  | some i =>
    exact ⟨h1, h2, fun tsk hmem => h3 tsk (List.eraseIdx_subset _ _ hmem)⟩

theorem IdInv_toggle (now : Nat) (id : String) {s : ServiceState} (h : IdInv s) :
    IdInv (toggleTaskCompletion now id s).2 := by
  unfold toggleTaskCompletion
  cases hf : s.tasks.find? (fun t => t.id == id) with
  | none => exact h
  | some tsk => exact IdInv_update now id _ h

theorem IdInv_applyOp {s : ServiceState} (h : IdInv s) (op : Op) :
    IdInv (applyOp s op) := by
  cases op with
  | create now req => exact IdInv_create now req h
  | update now id req => exact IdInv_update now id req h
  | del id => exact IdInv_delete id h
  | toggle now id => exact IdInv_toggle now id h

theorem IdInv_runOps {s : ServiceState} (h : IdInv s) (ops : List Op) :
    IdInv (runOps s ops) := by
  induction ops generalizing s with
  | nil => exact h
  | cons op ops ih => exact ih (IdInv_applyOp h op)

theorem IdInv_initState (t0 : Nat) : IdInv (initState t0) := by
  unfold initState sampleRequests
  simp only [List.foldl]
  exact IdInv_create _ _ (IdInv_create _ _ (IdInv_create _ _ IdInv_empty))

/-! ## The claims -/

/-- C4: for every `CreateTaskRequest` whose title is empty or all-whitespace
(trims to the empty string), `createTask` fails with the validation error and
the whole store state — collection, counter, history — is unchanged. -/
theorem create_blank_spec (now : Nat) (req : CreateTaskRequest)
    (s : ServiceState) (h : jsTrim req.title = "") :
    createTask now req s = (.error (.validation "Task title is required"), s) :=
  createTask_blank now h

theorem create_blank_spec_witness :
    jsTrim (CreateTaskRequest.mk "   " "x").title = "" ∧
    createTask 7 (CreateTaskRequest.mk "   " "x") exampleState
      = (.error (.validation "Task title is required"), exampleState) :=
  ⟨by decide, create_blank_spec 7 (CreateTaskRequest.mk "   " "x") exampleState (by decide)⟩

/-- C5: for every id not carried by any task in the collection, `updateTask`,
`deleteTask` and `toggleTaskCompletion` all fail with the not-found error and
leave the state unchanged; in particular `toggleTaskCompletion` fails exactly
like `updateTask` does. -/
theorem not_found_ops_spec (s : ServiceState) (id : String) (now now2 : Nat)
    (req : UpdateTaskRequest) (h : ∀ t ∈ s.tasks, t.id ≠ id) :
    updateTask now id req s = (.error (.notFound id), s) ∧
    deleteTask id s = (.error (.notFound id), s) ∧
    toggleTaskCompletion now2 id s = (.error (.notFound id), s) :=
  ⟨updateTask_not_found h now req, deleteTask_not_found h,
    toggleTaskCompletion_not_found h now2⟩

theorem not_found_ops_spec_witness :
    (∀ t ∈ exampleState.tasks, t.id ≠ "nope") ∧
    (updateTask 3 "nope" (UpdateTaskRequest.mk (some "T") none none) exampleState
        = (.error (.notFound "nope"), exampleState) ∧
      deleteTask "nope" exampleState = (.error (.notFound "nope"), exampleState) ∧
      toggleTaskCompletion 4 "nope" exampleState
        = (.error (.notFound "nope"), exampleState)) :=
  ⟨by decide, not_found_ops_spec exampleState "nope" 3 4
    (UpdateTaskRequest.mk (some "T") none none) (by decide)⟩

/-- C10: in `updateTask` the existence check runs before title validation,
so on an unknown id the result is the not-found error even when the request
carries an explicitly blank title. -/
theorem update_not_found_priority_spec (s : ServiceState) (id : String)
    (now : Nat) (req : UpdateTaskRequest) (h : ∀ t ∈ s.tasks, t.id ≠ id)
    (_hb : blankTitle req.title = true) :
    updateTask now id req s = (.error (.notFound id), s) :=
  updateTask_not_found h now req

theorem update_not_found_priority_spec_witness :
    ((∀ t ∈ exampleState.tasks, t.id ≠ "nope") ∧
      blankTitle (UpdateTaskRequest.mk (some "  ") none none).title = true) ∧
    updateTask 3 "nope" (UpdateTaskRequest.mk (some "  ") none none) exampleState
      = (.error (.notFound "nope"), exampleState) :=
  ⟨⟨by decide, by decide⟩, update_not_found_priority_spec exampleState "nope" 3
    (UpdateTaskRequest.mk (some "  ") none none) (by decide) (by decide)⟩

/-- C1 counterexample: on the one-task state `exampleState` whose task has
description `"old"`, `updateTask` with an explicitly empty description
succeeds but the persisted description is still `"old"`, not the empty
string claimed. -/
theorem update_empty_description_counterexample :
    ((updateTask 5 "t1" (UpdateTaskRequest.mk none (some "") none)
        exampleState).1.map Task.description) = .ok "old" ∧
    ((updateTask 5 "t1" (UpdateTaskRequest.mk none (some "") none)
        exampleState).1.map Task.description) ≠ .ok "" := by
  decide

/-- C1 amended: for every task present in the collection,
`updateTask id (description := "")` succeeds, but the explicitly supplied
empty string is indistinguishable from an omitted field: the resulting
description keeps its prior value, as do all the omitted fields
(title, completed, createdAt). -/
theorem update_empty_description_amended (s : ServiceState) (id : String)
    (i : Nat) (tsk : Task) (now : Nat)
    (hf : findIndex (fun t => t.id == id) s.tasks = some i)
    (hg : s.tasks[i]? = some tsk) :
    ∃ tsk', (updateTask now id (UpdateTaskRequest.mk none (some "") none) s).1
        = .ok tsk' ∧
      tsk'.description = tsk.description ∧
      tsk'.title = tsk.title ∧
      tsk'.completed = tsk.completed ∧
      tsk'.createdAt = tsk.createdAt := by
  refine ⟨mergeTask now (UpdateTaskRequest.mk none (some "") none) tsk,
    ?_, ?_, rfl, rfl, rfl⟩
  · rw [updateTask_found hf hg (UpdateTaskRequest.mk none (some "") none) rfl]
  · simp [mergeTask, jsOrElse, show jsTrim "" = "" from rfl]

theorem update_empty_description_amended_witness :
    (findIndex (fun t => t.id == "t1") exampleState.tasks = some 0 ∧
      exampleState.tasks[0]? = some exampleTask) ∧
    ∃ tsk', (updateTask 5 "t1" (UpdateTaskRequest.mk none (some "") none)
        exampleState).1 = .ok tsk' ∧
      tsk'.description = exampleTask.description ∧
      tsk'.title = exampleTask.title ∧
      tsk'.completed = exampleTask.completed ∧
      tsk'.createdAt = exampleTask.createdAt :=
  ⟨⟨by decide, by decide⟩, update_empty_description_amended exampleState "t1" 0
    exampleTask 5 (by decide) (by decide)⟩

/-- C6: for every id present in the collection (the task at the found index)
and every request whose title is omitted or non-blank after trimming,
`updateTask` succeeds, every omitted field keeps its prior value, `createdAt`
is unchanged, and `updatedAt` does not decrease (the clock reading `now` is
at least the stored `updatedAt`). -/
theorem update_merge_spec (s : ServiceState) (id : String) (i : Nat)
    (tsk : Task) (req : UpdateTaskRequest) (now : Nat)
    (hf : findIndex (fun t => t.id == id) s.tasks = some i)
    (hg : s.tasks[i]? = some tsk)
    (hT : blankTitle req.title = false)
    (hclk : tsk.updatedAt ≤ now) :
    ∃ tsk', (updateTask now id req s).1 = .ok tsk' ∧
      (req.title = none → tsk'.title = tsk.title) ∧
      (req.description = none → tsk'.description = tsk.description) ∧
      (req.completed = none → tsk'.completed = tsk.completed) ∧
      tsk'.createdAt = tsk.createdAt ∧
      tsk.updatedAt ≤ tsk'.updatedAt := by
  refine ⟨mergeTask now req tsk, ?_, ?_, ?_, ?_, rfl, hclk⟩
  · rw [updateTask_found hf hg req hT]
  · intro hnone; simp [mergeTask, hnone, jsOrElse]
  · intro hnone; simp [mergeTask, hnone, jsOrElse]
  · intro hnone; simp [mergeTask, hnone]

theorem update_merge_spec_witness :
    (findIndex (fun t => t.id == "t1") exampleState.tasks = some 0 ∧
      exampleState.tasks[0]? = some exampleTask ∧
      blankTitle (UpdateTaskRequest.mk none none (some true)).title = false ∧
      exampleTask.updatedAt ≤ 5) ∧
    ∃ tsk', (updateTask 5 "t1" (UpdateTaskRequest.mk none none (some true))
        exampleState).1 = .ok tsk' ∧
      ((UpdateTaskRequest.mk none none (some true)).title = none →
        tsk'.title = exampleTask.title) ∧
      ((UpdateTaskRequest.mk none none (some true)).description = none →
        tsk'.description = exampleTask.description) ∧
      ((UpdateTaskRequest.mk none none (some true)).completed = none →
        tsk'.completed = exampleTask.completed) ∧
      tsk'.createdAt = exampleTask.createdAt ∧
      exampleTask.updatedAt ≤ tsk'.updatedAt :=
  ⟨⟨by decide, by decide, by decide, by decide⟩,
    update_merge_spec exampleState "t1" 0 exampleTask
      (UpdateTaskRequest.mk none none (some true)) 5
      (by decide) (by decide) (by decide) (by decide)⟩

/-- C7: toggling a present task twice returns the entity to its original
`completed` value, with `title`, `description` and `createdAt` unchanged
from their values before the first toggle. -/
theorem toggle_twice_spec (s : ServiceState) (id : String) (tsk : Task)
    (now1 now2 : Nat)
    (hfind : s.tasks.find? (fun t => t.id == id) = some tsk) :
    ∃ tsk1 s1 tsk2, toggleTaskCompletion now1 id s = (.ok tsk1, s1) ∧
      (toggleTaskCompletion now2 id s1).1 = .ok tsk2 ∧
      tsk2.completed = tsk.completed ∧
      tsk2.title = tsk.title ∧
      tsk2.description = tsk.description ∧
      tsk2.createdAt = tsk.createdAt := by
  obtain ⟨i, hf, hg⟩ := findIndex_of_find? hfind
  have hp : (tsk.id == id) = true := by
    simpa using List.find?_some hfind
  have h1 : toggleTaskCompletion now1 id s
      = updateTask now1 id { completed := some (!tsk.completed) } s := by
    unfold toggleTaskCompletion
    rw [hfind]
  set m1 := mergeTask now1 { completed := some (!tsk.completed) } tsk with hm1
  have h2 : updateTask now1 id { completed := some (!tsk.completed) } s
      = (.ok m1, { s with tasks := s.tasks.set i m1 }) :=
    updateTask_found hf hg
      ({ completed := some (!tsk.completed) } : UpdateTaskRequest) rfl now1
  have hp1 : (m1.id == id) = true := by simpa [hm1, mergeTask] using hp
  have hf2 : findIndex (fun t => t.id == id) (s.tasks.set i m1) = some i :=
    findIndex_set_self hf hp1
  have hg2 : (s.tasks.set i m1)[i]? = some m1 := getElem?_set_of_some hg
  have hfind2 : (s.tasks.set i m1).find? (fun t => t.id == id) = some m1 :=
    find?_of_findIndex hf2 hg2
  have h3 : toggleTaskCompletion now2 id { s with tasks := s.tasks.set i m1 }
      = updateTask now2 id { completed := some (!m1.completed) }
          { s with tasks := s.tasks.set i m1 } := by
    unfold toggleTaskCompletion
    dsimp only
    rw [hfind2]
  refine ⟨m1, { s with tasks := s.tasks.set i m1 },
    mergeTask now2 { completed := some (!m1.completed) } m1,
    h1.trans h2, ?_, ?_, ?_, ?_, ?_⟩
  · rw [h3, updateTask_found hf2 hg2
      ({ completed := some (!m1.completed) } : UpdateTaskRequest) rfl now2]
  · simp [hm1, mergeTask]
  · simp [hm1, mergeTask, jsOrElse]
  · simp [hm1, mergeTask, jsOrElse]
  · simp [hm1, mergeTask]

theorem toggle_twice_spec_witness :
    (exampleState.tasks.find? (fun t => t.id == "t1") = some exampleTask) ∧
    ∃ tsk1 s1 tsk2, toggleTaskCompletion 5 "t1" exampleState = (.ok tsk1, s1) ∧
      (toggleTaskCompletion 6 "t1" s1).1 = .ok tsk2 ∧
      tsk2.completed = exampleTask.completed ∧
      tsk2.title = exampleTask.title ∧
      tsk2.description = exampleTask.description ∧
      tsk2.createdAt = exampleTask.createdAt :=
  ⟨by decide, toggle_twice_spec exampleState "t1" exampleTask 5 6 (by decide)⟩

/-- C3: after any sequence of operations on a freshly initialized service,
`createTask` on a request whose title is non-blank after trimming succeeds;
the returned task has trimmed title and description, `completed = false`,
`createdAt` equal to `updatedAt`, and an id distinct from every id the store
ever assigned — in particular from every id currently in the collection. -/
theorem create_valid_spec (t0 : Nat) (ops : List Op) (now : Nat)
    (req : CreateTaskRequest) (h : ¬ jsTrim req.title = "") :
    ∃ tsk, (createTask now req (runOps (initState t0) ops)).1 = .ok tsk ∧
      tsk.title = jsTrim req.title ∧
      tsk.description = jsTrim req.description ∧
      tsk.completed = false ∧
      tsk.createdAt = tsk.updatedAt ∧
      tsk.id ∉ (runOps (initState t0) ops).assigned ∧
      ∀ t' ∈ (runOps (initState t0) ops).tasks, t'.id ≠ tsk.id := by
  obtain ⟨h1, h2, h3⟩ := IdInv_runOps (IdInv_initState t0) ops
  refine ⟨freshTask (runOps (initState t0) ops).nextId now req,
    ?_, rfl, rfl, rfl, rfl, ?_, ?_⟩
  · rw [createTask_ok now h]
  · exact fresh_id_not_assigned h1 now
  · intro t' ht' hEq
    have hmem := h3 t' ht'
    rw [hEq] at hmem
    exact fresh_id_not_assigned h1 now hmem

theorem create_valid_spec_witness :
    (¬ jsTrim (CreateTaskRequest.mk "  A  " " B ").title = "") ∧
    ∃ tsk, (createTask 5 (CreateTaskRequest.mk "  A  " " B ")
        (runOps (initState 0) [])).1 = .ok tsk ∧
      tsk.title = jsTrim (CreateTaskRequest.mk "  A  " " B ").title ∧
      tsk.description = jsTrim (CreateTaskRequest.mk "  A  " " B ").description ∧
      tsk.completed = false ∧
      tsk.createdAt = tsk.updatedAt ∧
      tsk.id ∉ (runOps (initState 0) []).assigned ∧
      ∀ t' ∈ (runOps (initState 0) []).tasks, t'.id ≠ tsk.id :=
  ⟨by decide, create_valid_spec 0 [] 5 (CreateTaskRequest.mk "  A  " " B ")
    (by decide)⟩

/-- C8: ids are unique across the lifetime of the store: after any operation
sequence the history of assigned ids has no duplicates — no id assigned by
create equals an id assigned earlier, even after deletions — and two
sequential creates issued at the same clock reading return tasks with
distinct ids. -/
theorem id_lifetime_unique_spec (t0 : Nat) (ops : List Op) (now : Nat)
    (r1 r2 : CreateTaskRequest) (h1 : ¬ jsTrim r1.title = "")
    (h2 : ¬ jsTrim r2.title = "") :
    (runOps (initState t0) ops).assigned.Nodup ∧
    ∃ tsk1 tsk2,
      (createTask now r1 (runOps (initState t0) ops)).1 = .ok tsk1 ∧
      (createTask now r2
        (createTask now r1 (runOps (initState t0) ops)).2).1 = .ok tsk2 ∧
      tsk1.id ≠ tsk2.id := by
  set s := runOps (initState t0) ops with hs
  obtain ⟨hI1, hI2, hI3⟩ := IdInv_runOps (IdInv_initState t0) ops
  refine ⟨hI2, freshTask s.nextId now r1, freshTask (s.nextId + 1) now r2,
    ?_, ?_, ?_⟩
  · rw [createTask_ok now h1]
  · rw [createTask_ok now h1]
    dsimp only
    rw [createTask_ok now h2]
  · intro hEq
    have hEq' : generateId s.nextId now = generateId (s.nextId + 1) now := hEq
    have := generateId_inj_left hEq'
    omega

theorem id_lifetime_unique_spec_witness :
    ((¬ jsTrim (CreateTaskRequest.mk "A" "" : CreateTaskRequest).title = "") ∧
      (¬ jsTrim (CreateTaskRequest.mk "B" "" : CreateTaskRequest).title = "")) ∧
    ((runOps (initState 0) []).assigned.Nodup ∧
      ∃ tsk1 tsk2,
        (createTask 9 (CreateTaskRequest.mk "A" "")
          (runOps (initState 0) [])).1 = .ok tsk1 ∧
        (createTask 9 (CreateTaskRequest.mk "B" "")
          (createTask 9 (CreateTaskRequest.mk "A" "")
            (runOps (initState 0) [])).2).1 = .ok tsk2 ∧
        tsk1.id ≠ tsk2.id) :=
  ⟨⟨by decide, by decide⟩, id_lifetime_unique_spec 0 [] 9
    (CreateTaskRequest.mk "A" "") (CreateTaskRequest.mk "B" "")
    (by decide) (by decide)⟩

/-- The not-found error always carries a nonempty message. -/
theorem notFound_message_ne_empty (id : String) :
    TaskError.message (.notFound id) ≠ "" := by
  intro h
  have hd := congrArg String.data h
  simp [TaskError.message, String.data_append] at hd

/-- C9: when the service delete succeeds, the orchestrator shows the success
message and clears the editing reference exactly when the deleted id is the
id being edited (deleting a different task leaves the reference unchanged);
when the delete fails, the orchestrator surfaces the error's message. -/
theorem delete_orchestration_spec (app : AppState) (svc : ServiceState)
    (taskId : String) (now : Nat) :
    (∀ b, (deleteTask taskId svc).1 = .ok b →
      (onDeleteTask now taskId app svc).1.successMessage
          = "Task deleted successfully!" ∧
      (onDeleteTask now taskId app svc).1.editingTask
          = (match app.editingTask with
             | some t => if t.id == taskId then none else some t
             | none => none)) ∧
    (∀ e, (deleteTask taskId svc).1 = .error e →
      (onDeleteTask now taskId app svc).1.errorMessage = e.message) := by
  constructor
  · intro b hb
    simp only [onDeleteTask, hb]
    constructor
    · dsimp only [clearMessages, showSuccess]
      split <;> rfl
    · cases happ : app.editingTask with
      | none => simp [clearMessages, showSuccess, happ]
      | some t =>
        simp only [clearMessages, showSuccess, happ]
        by_cases ht : (t.id == taskId) = true <;> simp [ht]
  · intro e he
    have he' : e = .notFound taskId := by
      have hcopy := he
      unfold deleteTask at hcopy
      cases hf : findIndex (fun t => t.id == taskId) svc.tasks with
      | none =>
        rw [hf] at hcopy
        injection hcopy with h
        exact h.symm
      | some i =>
        rw [hf] at hcopy
        simp at hcopy
    subst he'
    simp only [onDeleteTask, he]
    dsimp only [handleError, clearMessages]
    rw [if_neg (notFound_message_ne_empty taskId)]

theorem delete_orchestration_spec_witness :
    ((∀ b, (deleteTask "t1" exampleState).1 = .ok b →
      (onDeleteTask 5 "t1" initialAppState exampleState).1.successMessage
          = "Task deleted successfully!" ∧
      (onDeleteTask 5 "t1" initialAppState exampleState).1.editingTask
          = (match initialAppState.editingTask with
             | some t => if t.id == "t1" then none else some t
             | none => none)) ∧
    (∀ e, (deleteTask "t1" exampleState).1 = .error e →
      (onDeleteTask 5 "t1" initialAppState exampleState).1.errorMessage
          = e.message)) ∧
    (onDeleteTask 5 "t1" initialAppState exampleState).1.successMessage
        = "Task deleted successfully!" :=
  ⟨delete_orchestration_spec initialAppState exampleState "t1" 5,
    ((delete_orchestration_spec initialAppState exampleState "t1" 5).1 true
      (by decide)).1⟩

/-- C2 counterexample: show a success message at time 0, then tear the
component down.  The notification timer scheduled for time 3000 is still
pending after `ngOnDestroy` — teardown does not cancel it — and its firing
still mutates the destroyed component's state. -/
theorem teardown_timer_counterexample :
    (ngOnDestroy (showSuccess 0 "Task deleted successfully!"
        initialAppState)).timers = [3000] ∧
    (ngOnDestroy (showSuccess 0 "Task deleted successfully!"
        initialAppState)).destroyed = true ∧
    fireSuccessTimer 0 (ngOnDestroy (showSuccess 0 "Task deleted successfully!"
        initialAppState))
      ≠ ngOnDestroy (showSuccess 0 "Task deleted successfully!"
        initialAppState) := by
  decide

/-- C2 amended: a shown success message is indeed cleared when the timer
scheduled `successDelay` after the show fires; but teardown cancels only the
subscriptions, not the pending notification timers: after `ngOnDestroy` the
timer is still pending, and when it fires its callback still clears
`successMessage`, mutating the state of the destroyed component. -/
theorem success_timer_amended (st : AppState) (now : Nat) (msg : String)
    (i : Nat) (hmsg : msg ≠ "") :
    (showSuccess now msg st).successMessage = msg ∧
    (showSuccess now msg st).timers = st.timers ++ [now + successDelay] ∧
    (fireSuccessTimer i (showSuccess now msg st)).successMessage = "" ∧
    (ngOnDestroy (showSuccess now msg st)).timers
        = st.timers ++ [now + successDelay] ∧
    (ngOnDestroy (showSuccess now msg st)).destroyed = true ∧
    (fireSuccessTimer i (ngOnDestroy (showSuccess now msg st))).successMessage
        = "" ∧
    fireSuccessTimer i (ngOnDestroy (showSuccess now msg st))
        ≠ ngOnDestroy (showSuccess now msg st) := by
  refine ⟨rfl, rfl, rfl, rfl, rfl, rfl, ?_⟩
  intro hEq
  have hmsgEq := congrArg AppState.successMessage hEq
  dsimp only [fireSuccessTimer, ngOnDestroy, showSuccess] at hmsgEq
  exact hmsg hmsgEq.symm

theorem success_timer_amended_witness :
    ("x" : String) ≠ "" ∧
    ((showSuccess 0 "x" initialAppState).successMessage = "x" ∧
      (showSuccess 0 "x" initialAppState).timers
          = initialAppState.timers ++ [0 + successDelay] ∧
      (fireSuccessTimer 0 (showSuccess 0 "x" initialAppState)).successMessage
          = "" ∧
      (ngOnDestroy (showSuccess 0 "x" initialAppState)).timers
          = initialAppState.timers ++ [0 + successDelay] ∧
      (ngOnDestroy (showSuccess 0 "x" initialAppState)).destroyed = true ∧
      (fireSuccessTimer 0 (ngOnDestroy
          (showSuccess 0 "x" initialAppState))).successMessage = "" ∧
      fireSuccessTimer 0 (ngOnDestroy (showSuccess 0 "x" initialAppState))
          ≠ ngOnDestroy (showSuccess 0 "x" initialAppState)) :=
  ⟨by decide, success_timer_amended initialAppState 0 "x" 0 (by decide)⟩

end TaskTracker
